import Mathlib

/-!
Verification of the single-server checkout queue simulator
(`queue_simulator.py`): a discrete-event simulation driven by a
min-priority queue of `(time, kind, payload)` events, with stochastic
variate generators and statistics accumulation.

Modelling conventions:
* Python floats are modelled as `ℚ`.
* The random source is an injectable stream `rng : ℕ → ℚ`; the state
  records the next unread index (`rng_index`), and each call to
  `np.random.*` consumes one value.  A `normal(loc, scale)` draw is
  modelled as `loc + scale * z` where `z` is the stream value (the
  standard-normal variate); a `gamma(shape, scale)` draw as
  `scale * z` (`z` the Gamma(shape,1) variate); a `beta(a, b)` draw
  takes the stream value `z` directly (its support is `[0,1]`).
  These location-scale decompositions model the samplers on numpy's
  valid argument domains (`scale ≥ 0` for `normal`, positive
  shape/scale and alpha/beta for `gamma`/`beta`); numpy's `ValueError`
  for out-of-domain arguments is outside the model, and no theorem
  below evaluates a sampler outside its domain.
* The `heapq` event heap is modelled as a list together with `popMin`,
  which removes a least element under the Python tuple order
  (time first, then the event-kind string, then the payload).
-/

namespace QueueSim

/-- From `SHIFT_CHANGE_TIME = 120.0`. -/
def SHIFT_CHANGE_TIME : ℚ := 120

/-- From `class SimParams`: the numeric configuration fields assigned by
`SimParams.__init__` (including the four inert "virtual" fields). -/
structure SimParams where
  mean_arrival_time : ℚ
  std_arrival_time : ℚ
  min_arrival_time : ℚ
  mean_service_time : ℚ
  slow_mean_service_time_first : ℚ
  slow_mean_service_time_next : ℚ
  std_service_time : ℚ
  min_service_time : ℚ
  max_service_time : ℚ
  failure_shape : ℚ
  failure_scale : ℚ
  failure_alpha : ℚ
  failure_beta : ℚ
  failure_min_time : ℚ
  failure_max_time : ℚ
  expected_arrival : ℚ
  expected_service : ℚ
  expected_failure_time : ℚ
  expected_failure_duration : ℚ
deriving DecidableEq, Repr

/-- From `SimParams.__init__`: it only assigns the given arguments to the
fields, performing no validation whatsoever. -/
def SimParams.init (mean_arrival_time std_arrival_time min_arrival_time
    mean_service_time slow_mean_service_time_first slow_mean_service_time_next
    std_service_time min_service_time max_service_time
    failure_shape failure_scale failure_alpha failure_beta
    failure_min_time failure_max_time
    expected_arrival expected_service expected_failure_time
    expected_failure_duration : ℚ) : SimParams :=
  { mean_arrival_time := mean_arrival_time
    std_arrival_time := std_arrival_time
    min_arrival_time := min_arrival_time
    mean_service_time := mean_service_time
    slow_mean_service_time_first := slow_mean_service_time_first
    slow_mean_service_time_next := slow_mean_service_time_next
    std_service_time := std_service_time
    min_service_time := min_service_time
    max_service_time := max_service_time
    failure_shape := failure_shape
    failure_scale := failure_scale
    failure_alpha := failure_alpha
    failure_beta := failure_beta
    failure_min_time := failure_min_time
    failure_max_time := failure_max_time
    expected_arrival := expected_arrival
    expected_service := expected_service
    expected_failure_time := expected_failure_time
    expected_failure_duration := expected_failure_duration }

/-- The default argument values of `SimParams.__init__`. -/
def SimParams.default : SimParams :=
  SimParams.init 2 (1/2) (1/2) 3 6 4 2 1 8 3 120 2 5 5 20 2 3 120 10

/-- Event kinds, with the payload a `service_end` carries
(`(client_id, service_time)` in the source; the other kinds carry
`data=None`). -/
inductive EKind where
  | arrival : EKind
  | service_end (cid : ℕ) (dur : ℚ) : EKind
  | failure_start : EKind
  | failure_end : EKind
  | shift_change : EKind
deriving DecidableEq, Repr

/-- The event-type string stored in the heap tuple for each kind,
modelled as its list of characters (Python compares strings
lexicographically by code point, which is the lexicographic order on
`List Char`). -/
def EKind.str : EKind → List Char
  | .arrival => "arrival".data
  | .service_end _ _ => "service_end".data
  | .failure_start => "failure_start".data
  | .failure_end => "failure_end".data
  | .shift_change => "shift_change".data

/-- Python comparison of the `(event_type, data)` suffix of a heap tuple:
the kind strings are compared first; only equal-kind `service_end`
events ever compare payloads (a `(cid, dur)` tuple, lexicographically).
Same-kind events with `None` payloads compare equal. -/
def EKind.le : EKind → EKind → Bool
  | .service_end c1 d1, .service_end c2 d2 =>
      if c1 < c2 then true else if c1 = c2 then decide (d1 ≤ d2) else false
  | a, b => decide (a.str ≤ b.str)

/-- A pending event of the heap: the Python tuple `(time, event_type, data)`. -/
structure Event where
  time : ℚ
  kind : EKind
deriving DecidableEq, Repr

/-- Python tuple comparison on heap entries: `time` first, then the
kind/payload comparison `EKind.le`. -/
def Event.le (a b : Event) : Bool :=
  if a.time < b.time then true
  else if a.time = b.time then EKind.le a.kind b.kind
  else false

/-- `heapq.heappop`: remove and return a least element (under `Event.le`)
of the pending-event list, together with the remaining events. -/
def popMin : List Event → Option (Event × List Event)
  | [] => none
  | e :: rest =>
    match popMin rest with
    | none => some (e, [])
    | some (m, rest') =>
      if Event.le e m then some (e, rest) else some (m, e :: rest')

/-- From `Simulation.__init__` plus the loop-local data of `run`: the
mutable state of one simulation.  `arrivals_dispatched` is a ghost
statistic counting dispatched `arrival` events; in the source it always
equals `next_customer_id - 1`, since `next_customer_id` starts at 1 and
is incremented exactly when an `arrival` event is dispatched. -/
structure SimState where
  simulation_time : ℚ
  params : SimParams
  event_queue : List Event
  queue : List ℕ
  current_time : ℚ
  next_customer_id : ℕ
  server_busy : Bool
  in_failure : Bool
  shift_effect_counter : ℕ
  served_customers : ℕ
  lost_customers : ℕ
  total_service_time : ℚ
  failure_count : ℕ
  total_failure_duration : ℚ
  unserved_due_to_timeout : ℕ
  arrivals_dispatched : ℕ
  rng_index : ℕ
deriving DecidableEq, Repr

/-- Initial state of `Simulation.__init__`. -/
def init_sim (params : SimParams) (simulation_time : ℚ) : SimState :=
  { simulation_time := simulation_time
    params := params
    event_queue := []
    queue := []
    current_time := 0
    next_customer_id := 1
    server_busy := false
    in_failure := false
    shift_effect_counter := 0
    served_customers := 0
    lost_customers := 0
    total_service_time := 0
    failure_count := 0
    total_failure_duration := 0
    unserved_due_to_timeout := 0
    arrivals_dispatched := 0
    rng_index := 0 }

/-- Python's builtin `max` on two floats (the first argument on ties). -/
def pymax (a b : ℚ) : ℚ := if b ≤ a then a else b

/-- Python's builtin `min` on two floats (the first argument on ties). -/
def pymin (a b : ℚ) : ℚ := if a ≤ b then a else b

/-- `generate_arrival_time`: `max(min_arrival_time, normal(mean, std))`. -/
def generate_arrival_time (rng : ℕ → ℚ) (s : SimState) : ℚ × SimState :=
  let z := rng s.rng_index
  (pymax s.params.min_arrival_time
      (s.params.mean_arrival_time + s.params.std_arrival_time * z),
   { s with rng_index := s.rng_index + 1 })

/-- `generate_service_time`: pick the mean from the shift-slowdown
counter (3 → first-after-shift mean, 1 or 2 → subsequent mean,
0 → baseline), decrementing the counter when it was positive; sample
`normal(mean, std)` and clamp into `[min_service_time, max_service_time]`
via `min(max(base, min_service_time), max_service_time)`. -/
def generate_service_time (rng : ℕ → ℚ) (s : SimState) : ℚ × SimState :=
  let mean :=
    if 0 < s.shift_effect_counter then
      if s.shift_effect_counter = 3 then s.params.slow_mean_service_time_first
      else s.params.slow_mean_service_time_next
    else s.params.mean_service_time
  let s1 :=
    if 0 < s.shift_effect_counter then
      { s with shift_effect_counter := s.shift_effect_counter - 1 }
    else s
  let z := rng s1.rng_index
  let base := mean + s.params.std_service_time * z
  (pymin (pymax base s.params.min_service_time) s.params.max_service_time,
   { s1 with rng_index := s1.rng_index + 1 })

/-- `generate_failure_time`: `gamma(shape, scale)`, modelled as
`scale * z` with `z` the standard Gamma(shape,1) variate. -/
def generate_failure_time (rng : ℕ → ℚ) (s : SimState) : ℚ × SimState :=
  let z := rng s.rng_index
  (s.params.failure_scale * z, { s with rng_index := s.rng_index + 1 })

/-- `generate_failure_duration`: a Beta(alpha, beta) sample `z ∈ [0,1]`,
linearly rescaled to `failure_min_time + z * (failure_max_time -
failure_min_time)`. -/
def generate_failure_duration (rng : ℕ → ℚ) (s : SimState) : ℚ × SimState :=
  let z := rng s.rng_index
  (s.params.failure_min_time +
      z * (s.params.failure_max_time - s.params.failure_min_time),
   { s with rng_index := s.rng_index + 1 })

/-- `schedule_event`: push an event onto the heap (list position is
irrelevant; extraction goes through `popMin`). -/
def schedule_event (time : ℚ) (kind : EKind) (s : SimState) : SimState :=
  { s with event_queue := { time := time, kind := kind } :: s.event_queue }

/-- `process_next_client`: if the server is idle, the queue non-empty and
no failure is in progress, dequeue the head customer, sample a service
duration, schedule its `service_end`, and mark the server busy. -/
def process_next_client (rng : ℕ → ℚ) (s : SimState) : SimState :=
  if s.server_busy || s.in_failure then s
  else
    match s.queue with
    | [] => s
    | c :: rest =>
      let p := generate_service_time rng { s with queue := rest }
      let s2 := schedule_event (p.2.current_time + p.1)
        (EKind.service_end c p.1) p.2
      { s2 with server_busy := true }

/-- The abandonment loop of the `failure_start` handler: walk the queue
consuming one uniform draw per customer; a draw `< 0.4` loses the
customer, otherwise the customer is kept.  Returns the surviving queue,
the number of customers lost, and the next unread stream index. -/
def abandon (rng : ℕ → ℚ) (i : ℕ) : List ℕ → List ℕ × ℕ × ℕ
  | [] => ([], 0, i)
  | c :: rest =>
    let z := rng i
    let r := abandon rng (i + 1) rest
    if z < 2/5 then (r.1, r.2.1 + 1, r.2.2)
    else (c :: r.1, r.2.1, r.2.2)

/-- `Simulation.handle_event`: the transition table, one branch per
event kind, translated clause by clause from the source. -/
def handle_event (rng : ℕ → ℚ) (s : SimState) : EKind → SimState
  | .arrival =>
    let s1 :=
      if s.in_failure then { s with lost_customers := s.lost_customers + 1 }
      else process_next_client rng
        { s with queue := s.queue ++ [s.next_customer_id] }
    let p := generate_arrival_time rng s1
    schedule_event (p.2.current_time + p.1) EKind.arrival p.2
  | .service_end _ dur =>
    let s1 :=
      if s.in_failure then { s with lost_customers := s.lost_customers + 1 }
      else { s with served_customers := s.served_customers + 1,
                    total_service_time := s.total_service_time + dur }
    process_next_client rng { s1 with server_busy := false }
  | .failure_start =>
    let s1 := { s with in_failure := true, failure_count := s.failure_count + 1 }
    let a := abandon rng s1.rng_index s1.queue
    let s2 := { s1 with queue := a.1,
                        lost_customers := s1.lost_customers + a.2.1,
                        rng_index := a.2.2 }
    let p := generate_failure_duration rng s2
    let s3 := { p.2 with total_failure_duration := p.2.total_failure_duration + p.1 }
    schedule_event (s3.current_time + p.1) EKind.failure_end s3
  | .failure_end =>
    let s1 := process_next_client rng { s with in_failure := false }
    let p := generate_failure_time rng s1
    schedule_event (p.2.current_time + p.1) EKind.failure_start p.2
  | .shift_change =>
    let s1 := { s with shift_effect_counter := 3 }
    schedule_event (s1.current_time + SHIFT_CHANGE_TIME) EKind.shift_change s1

/-- Whether a kind is `arrival` (the run loop's
`if event_type == "arrival"` test). -/
def EKind.isArrival : EKind → Bool
  | .arrival => true
  | _ => false

/-- One iteration of the `while` loop in `Simulation.run`: `none` means
the loop terminates (empty heap, clock past the horizon, or the popped
event lies beyond the horizon). -/
def step (rng : ℕ → ℚ) (s : SimState) : Option SimState :=
  if s.event_queue = [] then none
  else if s.current_time ≤ s.simulation_time then
    match popMin s.event_queue with
    | none => none
    | some (e, rest) =>
      if s.simulation_time < e.time then none
      else
        let s1 := { s with event_queue := rest, current_time := e.time }
        let s2 :=
          if e.kind.isArrival then
            { s1 with next_customer_id := s1.next_customer_id + 1,
                      arrivals_dispatched := s1.arrivals_dispatched + 1 }
          else s1
        some (handle_event rng s2 e.kind)
  else none

/-- The `while` loop of `Simulation.run`, with explicit fuel bounding the
number of iterations. -/
def loop (rng : ℕ → ℚ) : ℕ → SimState → SimState
  | 0, s => s
  | n + 1, s =>
    match step rng s with
    | none => s
    | some s' => loop rng n s'

/-- `Simulation.run`: seed the initial `arrival` (time 0),
`failure_start` (at a sampled failure interval) and `shift_change`
events, run the loop, then count customers still queued or mid-service
as unserved at the horizon. -/
def run (rng : ℕ → ℚ) (fuel : ℕ) (params : SimParams)
    (simulation_time : ℚ) : SimState :=
  let s1 := schedule_event 0 EKind.arrival (init_sim params simulation_time)
  let p := generate_failure_time rng s1
  let s2 := schedule_event p.1 EKind.failure_start p.2
  let s3 := schedule_event SHIFT_CHANGE_TIME EKind.shift_change s2
  let s4 := loop rng fuel s3
  { s4 with unserved_due_to_timeout :=
      s4.queue.length + (if s4.server_busy then 1 else 0) }

/-- `avg_service_time` as finalized in `run`: guarded division. -/
def avg_service_time (s : SimState) : ℚ :=
  if 0 < s.served_customers then s.total_service_time / (s.served_customers : ℚ)
  else 0

/-- `avg_failure_duration` as finalized in `run`: guarded division. -/
def avg_failure_duration (s : SimState) : ℚ :=
  if 0 < s.failure_count then s.total_failure_duration / (s.failure_count : ℚ)
  else 0

/-- Whether a kind is a `service_end`. -/
def EKind.isServiceEnd : EKind → Bool
  | .service_end _ _ => true
  | _ => false

/-- The number of pending `service_end` events in a pending-event list
(in every reachable state this is 0 or 1, and equals `server_busy`). -/
def pendingSE (l : List Event) : ℕ :=
  List.countP (fun e => EKind.isServiceEnd e.kind) l

/-- The conservation invariant of the run loop: every dispatched arrival
is accounted exactly once among served customers, lost customers,
customers still in queue and the (at most one) customer whose
`service_end` is pending; `next_customer_id` counts dispatched arrivals
plus one; and `server_busy` holds exactly when a `service_end` is
pending. -/
def Inv (s : SimState) : Prop :=
  s.served_customers + s.lost_customers + s.queue.length
      + pendingSE s.event_queue = s.arrivals_dispatched
  ∧ s.next_customer_id = s.arrivals_dispatched + 1
  ∧ (s.server_busy = true ↔ pendingSE s.event_queue = 1)
  ∧ pendingSE s.event_queue ≤ 1

/-! ### Concrete inputs used in witnesses and counterexamples -/

/-- A scripted random source that always returns 1. -/
def rngOne : ℕ → ℚ := fun _ => 1

/-- A scripted random source that always returns 1/2. -/
def rngHalf : ℕ → ℚ := fun _ => 1/2

/-- A scripted random source whose uniform draws are `< 0.4` exactly at
indices 0, 2 and 5. -/
def rngAb : ℕ → ℚ := fun n => if n = 0 ∨ n = 2 ∨ n = 5 then 0 else 1

/-- A scripted random source driving a run with horizon 10 in which a
failure starts at time 1 (gamma draw `1/120`, scale 120) and the sampled
failure duration is `12.5`, so the paired `failure_end` (time `13.5`)
falls beyond the horizon. -/
def rngC2 : ℕ → ℚ := fun n =>
  if n = 0 then 1/120
  else if n = 1 then 0
  else if n = 2 then 100
  else if n = 3 then 1/2
  else 1

/-- The default configuration with an inverted service clamp range:
`min_service_time = 9 > max_service_time = 8`, out of the spec's valid
domain (`min ≤ max` on every clamped range).  All sampler arguments
(std, gamma shape/scale, beta alpha/beta) stay inside numpy's domains,
so the source program raises no error anywhere on these parameters:
Python's `min`/`max` are total, and the clamp simply always yields
`max_service_time`. -/
def badParams : SimParams :=
  SimParams.init 2 (1/2) (1/2) 3 6 4 2 9 8 3 120 2 5 5 20 2 3 120 10

/-- A freshly initialised simulation state over the default parameters. -/
def stBase : SimState := init_sim SimParams.default 480

/-- `stBase` immediately after a shift change (slowdown counter 3). -/
def stShift3 : SimState := { stBase with shift_effect_counter := 3 }

/-- `stBase` with the slowdown counter at 1. -/
def stShift1 : SimState := { stBase with shift_effect_counter := 1 }

/-- Modelled from the spec: the validity domain of the distribution
parameters ("negative std, non-positive gamma shape/scale, non-positive
beta alpha/beta, `min > max` on any clamped range" are invalid).  The
source has no counterpart: `SimParams.__init__` performs no check. -/
def validParams (p : SimParams) : Prop :=
  0 ≤ p.std_arrival_time ∧ 0 ≤ p.std_service_time
  ∧ 0 < p.failure_shape ∧ 0 < p.failure_scale
  ∧ 0 < p.failure_alpha ∧ 0 < p.failure_beta
  ∧ p.min_service_time ≤ p.max_service_time
  ∧ p.failure_min_time ≤ p.failure_max_time


/-! Pointwise evaluation lemmas for `EKind.le` (all pairs except the
two-`service_end` case, whose payload comparison stays symbolic). -/

@[simp] theorem EKind_le_a_a :
    EKind.le EKind.arrival EKind.arrival = true := by decide

@[simp] theorem EKind_le_a_se (c2 : ℕ) (d2 : ℚ) :
    EKind.le EKind.arrival (EKind.service_end c2 d2) = true := by rfl

@[simp] theorem EKind_le_a_fs :
    EKind.le EKind.arrival EKind.failure_start = true := by decide

@[simp] theorem EKind_le_a_fe :
    EKind.le EKind.arrival EKind.failure_end = true := by decide

@[simp] theorem EKind_le_a_sc :
    EKind.le EKind.arrival EKind.shift_change = true := by decide

@[simp] theorem EKind_le_se_a (c1 : ℕ) (d1 : ℚ) :
    EKind.le (EKind.service_end c1 d1) EKind.arrival = false := by rfl

@[simp] theorem EKind_le_se_fs (c1 : ℕ) (d1 : ℚ) :
    EKind.le (EKind.service_end c1 d1) EKind.failure_start = false := by rfl

@[simp] theorem EKind_le_se_fe (c1 : ℕ) (d1 : ℚ) :
    EKind.le (EKind.service_end c1 d1) EKind.failure_end = false := by rfl

@[simp] theorem EKind_le_se_sc (c1 : ℕ) (d1 : ℚ) :
    EKind.le (EKind.service_end c1 d1) EKind.shift_change = true := by rfl

@[simp] theorem EKind_le_fs_a :
    EKind.le EKind.failure_start EKind.arrival = false := by decide

@[simp] theorem EKind_le_fs_se (c2 : ℕ) (d2 : ℚ) :
    EKind.le EKind.failure_start (EKind.service_end c2 d2) = true := by rfl

@[simp] theorem EKind_le_fs_fs :
    EKind.le EKind.failure_start EKind.failure_start = true := by decide

@[simp] theorem EKind_le_fs_fe :
    EKind.le EKind.failure_start EKind.failure_end = false := by decide

@[simp] theorem EKind_le_fs_sc :
    EKind.le EKind.failure_start EKind.shift_change = true := by decide

@[simp] theorem EKind_le_fe_a :
    EKind.le EKind.failure_end EKind.arrival = false := by decide

@[simp] theorem EKind_le_fe_se (c2 : ℕ) (d2 : ℚ) :
    EKind.le EKind.failure_end (EKind.service_end c2 d2) = true := by rfl

@[simp] theorem EKind_le_fe_fs :
    EKind.le EKind.failure_end EKind.failure_start = true := by decide

@[simp] theorem EKind_le_fe_fe :
    EKind.le EKind.failure_end EKind.failure_end = true := by decide

@[simp] theorem EKind_le_fe_sc :
    EKind.le EKind.failure_end EKind.shift_change = true := by decide

@[simp] theorem EKind_le_sc_a :
    EKind.le EKind.shift_change EKind.arrival = false := by decide

@[simp] theorem EKind_le_sc_se (c2 : ℕ) (d2 : ℚ) :
    EKind.le EKind.shift_change (EKind.service_end c2 d2) = false := by rfl

@[simp] theorem EKind_le_sc_fs :
    EKind.le EKind.shift_change EKind.failure_start = false := by decide

@[simp] theorem EKind_le_sc_fe :
    EKind.le EKind.shift_change EKind.failure_end = false := by decide

@[simp] theorem EKind_le_sc_sc :
    EKind.le EKind.shift_change EKind.shift_change = true := by decide

/-! ### Basic shape lemmas about the variate generators -/

theorem le_pymax_left (a b : ℚ) : a ≤ pymax a b := by
  unfold pymax; split <;> linarith

theorem pymax_le (a b c : ℚ) (h1 : a ≤ c) (h2 : b ≤ c) : pymax a b ≤ c := by
  unfold pymax; split <;> assumption

theorem pymin_le_right (a b : ℚ) : pymin a b ≤ b := by
  unfold pymin; split <;> linarith

theorem le_pymin (a b c : ℚ) (h1 : c ≤ a) (h2 : c ≤ b) : c ≤ pymin a b := by
  unfold pymin; split <;> assumption

theorem le_pymax_right (a b : ℚ) : b ≤ pymax a b := by
  unfold pymax; split <;> linarith

theorem generate_arrival_time_fst (rng : ℕ → ℚ) (s : SimState) :
    (generate_arrival_time rng s).1 =
      pymax s.params.min_arrival_time
        (s.params.mean_arrival_time + s.params.std_arrival_time * rng s.rng_index) :=
  rfl

theorem generate_service_time_fst (rng : ℕ → ℚ) (s : SimState) :
    (generate_service_time rng s).1 =
      pymin (pymax ((if 0 < s.shift_effect_counter then
          if s.shift_effect_counter = 3 then s.params.slow_mean_service_time_first
          else s.params.slow_mean_service_time_next
        else s.params.mean_service_time) + s.params.std_service_time * rng s.rng_index)
        s.params.min_service_time) s.params.max_service_time := by
  simp only [generate_service_time]
  split <;> rfl

theorem generate_service_time_snd (rng : ℕ → ℚ) (s : SimState) :
    (generate_service_time rng s).2 =
      { s with
        shift_effect_counter :=
          if 0 < s.shift_effect_counter then s.shift_effect_counter - 1
          else s.shift_effect_counter,
        rng_index := s.rng_index + 1 } := by
  simp only [generate_service_time]
  split <;> rfl

theorem generate_failure_duration_fst (rng : ℕ → ℚ) (s : SimState) :
    (generate_failure_duration rng s).1 =
      s.params.failure_min_time +
        rng s.rng_index * (s.params.failure_max_time - s.params.failure_min_time) :=
  rfl

/-! ### C3: service-duration generation -/

/-- **C3.** When a service duration is generated: slowdown counter 3
selects `slow_mean_service_time_first`, counter 1 or 2 selects
`slow_mean_service_time_next`, counter 0 selects `mean_service_time`;
the Normal sample is clamped into
`[min_service_time, max_service_time]` (via `min`/`max`, not
resampling); and the counter is decremented by exactly 1 iff it was
positive. -/
theorem service_time_generation (rng : ℕ → ℚ) (s : SimState) :
    (s.shift_effect_counter = 3 →
      (generate_service_time rng s).1 =
        pymin (pymax (s.params.slow_mean_service_time_first +
            s.params.std_service_time * rng s.rng_index)
          s.params.min_service_time) s.params.max_service_time)
    ∧ (s.shift_effect_counter = 1 ∨ s.shift_effect_counter = 2 →
      (generate_service_time rng s).1 =
        pymin (pymax (s.params.slow_mean_service_time_next +
            s.params.std_service_time * rng s.rng_index)
          s.params.min_service_time) s.params.max_service_time)
    ∧ (s.shift_effect_counter = 0 →
      (generate_service_time rng s).1 =
        pymin (pymax (s.params.mean_service_time +
            s.params.std_service_time * rng s.rng_index)
          s.params.min_service_time) s.params.max_service_time)
    ∧ (generate_service_time rng s).2.shift_effect_counter =
        (if 0 < s.shift_effect_counter then s.shift_effect_counter - 1
         else s.shift_effect_counter) := by
  refine ⟨fun h => ?_, fun h => ?_, fun h => ?_, ?_⟩
  · rw [generate_service_time_fst, h]; norm_num
  · rcases h with h | h <;> rw [generate_service_time_fst, h] <;> norm_num
  · rw [generate_service_time_fst, h]; norm_num
  · rw [generate_service_time_snd]

/-- Witness for C3 at the concrete post-shift state `stShift3` and the
constant random source `rngOne`: the clamped duration is
`min (max (6 + 2·1) 1) 8 = 8` and the counter drops from 3 to 2. -/
theorem service_time_generation_witness :
    (generate_service_time rngOne stShift3).1 = 8
      ∧ (generate_service_time rngOne stShift3).2.shift_effect_counter = 2 := by
  have h := service_time_generation rngOne stShift3
  refine ⟨?_, ?_⟩
  · have h1 := h.1 (by norm_num [stShift3, stBase, init_sim])
    rw [h1]
    norm_num [stShift3, stBase, init_sim, SimParams.default, SimParams.init,
      rngOne, pymin, pymax]
  · have h4 := h.2.2.2
    rw [h4]
    norm_num [stShift3, stBase, init_sim]

/-! ### C5: bounds on the generated variates -/

/-- **C5.** For every random draw: the generated arrival interval is at
least `min_arrival_time`; when `min_service_time ≤ max_service_time`,
the generated service duration lies in
`[min_service_time, max_service_time]`; and when the Beta draw lies in
`[0,1]` and `failure_min_time ≤ failure_max_time`, the generated failure
duration lies in `[failure_min_time, failure_max_time]`. -/
theorem variate_bounds (rng : ℕ → ℚ) (s : SimState)
    (h1 : s.params.min_service_time ≤ s.params.max_service_time)
    (h2 : s.params.failure_min_time ≤ s.params.failure_max_time)
    (h3 : 0 ≤ rng s.rng_index) (h4 : rng s.rng_index ≤ 1) :
    s.params.min_arrival_time ≤ (generate_arrival_time rng s).1
    ∧ s.params.min_service_time ≤ (generate_service_time rng s).1
    ∧ (generate_service_time rng s).1 ≤ s.params.max_service_time
    ∧ s.params.failure_min_time ≤ (generate_failure_duration rng s).1
    ∧ (generate_failure_duration rng s).1 ≤ s.params.failure_max_time := by
  rw [generate_arrival_time_fst, generate_service_time_fst,
    generate_failure_duration_fst]
  refine ⟨le_pymax_left _ _,
    le_pymin _ _ _ (le_pymax_right _ _) h1,
    pymin_le_right _ _, ?_, ?_⟩
  · nlinarith
  · nlinarith

/-- Witness for C5 over the default parameters and the constant draw
`1/2`. -/
theorem variate_bounds_witness :
    stBase.params.min_arrival_time ≤ (generate_arrival_time rngHalf stBase).1
    ∧ stBase.params.min_service_time ≤ (generate_service_time rngHalf stBase).1
    ∧ (generate_service_time rngHalf stBase).1 ≤ stBase.params.max_service_time
    ∧ stBase.params.failure_min_time ≤ (generate_failure_duration rngHalf stBase).1
    ∧ (generate_failure_duration rngHalf stBase).1 ≤ stBase.params.failure_max_time :=
  variate_bounds rngHalf stBase
    (by norm_num [stBase, init_sim, SimParams.default, SimParams.init])
    (by norm_num [stBase, init_sim, SimParams.default, SimParams.init])
    (by norm_num [stBase, init_sim, rngHalf])
    (by norm_num [stBase, init_sim, rngHalf])

/-! ### C6: the ServiceEnd transition -/

/-- **C6.** Dispatching `service_end (customer, duration)`: if
`in_failure`, the customer is counted lost and the duration discarded;
otherwise the customer is counted served and the duration added to
`total_service_time`; in both cases `server_busy` is set to `false` and
`process_next_client` (TryStartService) is then attempted. -/
theorem service_end_transition (rng : ℕ → ℚ) (s : SimState) (cid : ℕ) (dur : ℚ) :
    handle_event rng s (EKind.service_end cid dur) =
      process_next_client rng
        (if s.in_failure then
          { s with lost_customers := s.lost_customers + 1, server_busy := false }
        else
          { s with served_customers := s.served_customers + 1,
                   total_service_time := s.total_service_time + dur,
                   server_busy := false }) := by
  cases h : s.in_failure <;> simp [handle_event, h]

/-! ### C9: division-guarded averages -/

/-- **C9.** The finalized averages are division-guarded:
`avg_service_time` is `total_service_time / served_customers` when
`served_customers ≠ 0` and `0` when it is `0`, and likewise
`avg_failure_duration` with `failure_count`; a zero denominator never
fails. -/
theorem avg_division_guarded (s : SimState) :
    (s.served_customers = 0 → avg_service_time s = 0)
    ∧ (s.served_customers ≠ 0 →
        avg_service_time s = s.total_service_time / (s.served_customers : ℚ))
    ∧ (s.failure_count = 0 → avg_failure_duration s = 0)
    ∧ (s.failure_count ≠ 0 →
        avg_failure_duration s = s.total_failure_duration / (s.failure_count : ℚ)) := by
  unfold avg_service_time avg_failure_duration
  refine ⟨fun h => ?_, fun h => ?_, fun h => ?_, fun h => ?_⟩ <;>
    split <;> first | rfl | omega

/-- Witness for C9: both zero-denominator guards fire on the initial
state, and the nonzero case divides on a state with two served
customers. -/
theorem avg_division_guarded_witness :
    avg_service_time stBase = 0 ∧ avg_failure_duration stBase = 0
      ∧ avg_service_time { stBase with served_customers := 2, total_service_time := 5 }
          = 5 / 2 :=
  ⟨(avg_division_guarded stBase).1 rfl, (avg_division_guarded stBase).2.2.1 rfl,
    by
      have h := (avg_division_guarded
        { stBase with served_customers := 2, total_service_time := 5 }).2.1
        (by norm_num)
      rw [h]
      norm_num⟩

/-! ### C7: abandonment at FailureStart -/

theorem abandon_surv (rng : ℕ → ℚ) (q : List ℕ) : ∀ i : ℕ,
    (abandon rng i q).1 =
      ((List.enumFrom i q).filter (fun p => decide (2/5 ≤ rng p.1))).map Prod.snd := by
  induction q with
  | nil => intro i; simp [abandon]
  | cons c rest ih =>
    intro i
    by_cases h : rng i < 2/5
    · have h' : ¬ (2/5 ≤ rng i) := not_le.mpr h
      simp [abandon, List.enumFrom_cons, h, h', ih]
    · have h' : 2/5 ≤ rng i := not_lt.mp h
      simp [abandon, List.enumFrom_cons, h, h', ih]

theorem abandon_lost (rng : ℕ → ℚ) (q : List ℕ) : ∀ i : ℕ,
    (abandon rng i q).2.1 =
      ((List.enumFrom i q).filter (fun p => decide (rng p.1 < 2/5))).length := by
  induction q with
  | nil => intro i; simp [abandon]
  | cons c rest ih =>
    intro i
    by_cases h : rng i < 2/5 <;>
      simp [abandon, List.enumFrom_cons, h, ih]

theorem abandon_sublist (rng : ℕ → ℚ) (q : List ℕ) : ∀ i : ℕ,
    ((abandon rng i q).1).Sublist q := by
  induction q with
  | nil => intro i; simp [abandon]
  | cons c rest ih =>
    intro i
    by_cases h : rng i < 2/5
    · simpa [abandon, h] using List.Sublist.cons c (ih (i + 1))
    · simpa [abandon, h] using List.Sublist.cons₂ c (ih (i + 1))

theorem abandon_idx (rng : ℕ → ℚ) (q : List ℕ) : ∀ i : ℕ,
    (abandon rng i q).2.2 = i + q.length := by
  induction q with
  | nil => intro i; simp [abandon]
  | cons c rest ih =>
    intro i
    by_cases h : rng i < 2/5 <;> simp [abandon, h, ih] <;> omega

/-- **C7.** At `failure_start` each queued customer is independently
removed (and counted lost) exactly when their uniform draw is `< 0.4`;
survivors keep their original relative order (the surviving queue is a
sublist).  The handler installs the surviving queue and adds the removed
count to `lost_customers`.  On a queue of 10 customers with draws `< 0.4`
exactly at indices 0, 2 and 5, exactly those three customers are removed
and the other seven remain in order. -/
theorem failure_start_abandonment :
    (∀ (rng : ℕ → ℚ) (i : ℕ) (q : List ℕ),
        (abandon rng i q).1 =
          ((List.enumFrom i q).filter (fun p => decide (2/5 ≤ rng p.1))).map Prod.snd
        ∧ (abandon rng i q).2.1 =
          ((List.enumFrom i q).filter (fun p => decide (rng p.1 < 2/5))).length
        ∧ ((abandon rng i q).1).Sublist q)
    ∧ (∀ (rng : ℕ → ℚ) (s : SimState),
        (handle_event rng s EKind.failure_start).queue =
            (abandon rng s.rng_index s.queue).1
        ∧ (handle_event rng s EKind.failure_start).lost_customers =
            s.lost_customers + (abandon rng s.rng_index s.queue).2.1)
    ∧ abandon rngAb 0 [1,2,3,4,5,6,7,8,9,10] = ([2,4,5,7,8,9,10], 3, 10) := by
  refine ⟨fun rng i q => ⟨abandon_surv rng q i, abandon_lost rng q i,
      abandon_sublist rng q i⟩, fun rng s => ?_, ?_⟩
  · constructor <;>
      simp [handle_event, schedule_event, generate_failure_duration]
  · norm_num [abandon, rngAb]

/-! ### C10: heap ordering and same-time tie-break -/

theorem ekind_le_refl (a : EKind) : EKind.le a a = true := by
  cases a <;> simp [EKind.le]

theorem ekind_le_total (a b : EKind) : EKind.le a b = true ∨ EKind.le b a = true := by
  cases a <;> cases b <;> simp [EKind.le] <;> try exact le_total _ _
  rename_i c1 d1 c2 d2
  rcases lt_trichotomy c1 c2 with h | h | h
  · left; omega
  · subst h
    rcases le_total d1 d2 with h | h
    · left; right; exact ⟨rfl, h⟩
    · right; right; exact ⟨rfl, h⟩
  · right; omega

theorem ekind_le_trans (a b c : EKind) (h1 : EKind.le a b = true)
    (h2 : EKind.le b c = true) : EKind.le a c = true := by
  cases a <;> cases b <;> cases c <;>
    simp_all [EKind.le, EKind.str] <;>
    first
      | decide
      | exact absurd h1 (by decide)
      | exact absurd h2 (by decide)
      | (rcases h1 with h1 | ⟨h1e, h1d⟩ <;> rcases h2 with h2 | ⟨h2e, h2d⟩ <;>
          first
            | (left; omega)
            | (subst h1e; subst h2e; right; exact ⟨rfl, le_trans h1d h2d⟩))

theorem ekind_le_antisymm (a b : EKind) (h1 : EKind.le a b = true)
    (h2 : EKind.le b a = true) : a = b := by
  cases a <;> cases b <;> simp_all [EKind.le, EKind.str] <;>
    first
      | decide
      | exact absurd h1 (by decide)
      | exact absurd h2 (by decide)
      | (rcases h1 with h1 | ⟨h1e, h1d⟩ <;> rcases h2 with h2 | ⟨h2e, h2d⟩ <;>
          first
            | omega
            | (subst h1e; exact ⟨rfl, le_antisymm h1d h2d⟩))

theorem event_le_refl (a : Event) : Event.le a a = true := by
  simp [Event.le, ekind_le_refl]

theorem Event.le_cases {x y : Event} (h : Event.le x y = true) :
    x.time < y.time ∨ (x.time = y.time ∧ EKind.le x.kind y.kind = true) := by
  unfold Event.le at h
  split_ifs at h with hlt heq
  · exact Or.inl hlt
  · exact Or.inr ⟨heq, h⟩

theorem Event.le_of_lt {x y : Event} (h : x.time < y.time) :
    Event.le x y = true := by
  unfold Event.le
  rw [if_pos h]

theorem Event.le_of_eq {x y : Event} (h : x.time = y.time)
    (hk : EKind.le x.kind y.kind = true) : Event.le x y = true := by
  unfold Event.le
  rw [if_neg (by rw [h]; exact lt_irrefl _), if_pos h]
  exact hk

theorem event_le_total (a b : Event) : Event.le a b = true ∨ Event.le b a = true := by
  rcases lt_trichotomy a.time b.time with h | h | h
  · exact Or.inl (Event.le_of_lt h)
  · rcases ekind_le_total a.kind b.kind with hk | hk
    · exact Or.inl (Event.le_of_eq h hk)
    · exact Or.inr (Event.le_of_eq h.symm hk)
  · exact Or.inr (Event.le_of_lt h)

theorem event_le_trans (a b c : Event) (h1 : Event.le a b = true)
    (h2 : Event.le b c = true) : Event.le a c = true := by
  rcases Event.le_cases h1 with h | ⟨he, hk⟩ <;>
    rcases Event.le_cases h2 with h' | ⟨he', hk'⟩
  · exact Event.le_of_lt (lt_trans h h')
  · exact Event.le_of_lt (he' ▸ h)
  · exact Event.le_of_lt (he ▸ h')
  · exact Event.le_of_eq (he.trans he') (ekind_le_trans _ _ _ hk hk')

theorem event_le_antisymm (a b : Event) (h1 : Event.le a b = true)
    (h2 : Event.le b a = true) : a = b := by
  rcases Event.le_cases h1 with h | ⟨he, hk⟩ <;>
    rcases Event.le_cases h2 with h' | ⟨he', hk'⟩
  · exact absurd h' (asymm h)
  · rw [he'] at h; exact absurd h (lt_irrefl _)
  · rw [he] at h'; exact absurd h' (lt_irrefl _)
  · have hk2 := ekind_le_antisymm _ _ hk hk'
    obtain ⟨t1, k1⟩ := a
    obtain ⟨t2, k2⟩ := b
    simp only [Event.mk.injEq]
    exact ⟨he, hk2⟩

theorem popMin_eq_none {l : List Event} : popMin l = none ↔ l = [] := by
  cases l with
  | nil => simp [popMin]
  | cons e rest =>
    simp only [popMin]
    cases h : popMin rest with
    | none => simp
    | some p =>
      obtain ⟨m, r⟩ := p
      by_cases hle : Event.le e m = true <;> simp [hle]

theorem popMin_perm {l : List Event} {e : Event} {r : List Event}
    (h : popMin l = some (e, r)) : l.Perm (e :: r) := by
  induction l generalizing e r with
  | nil => simp [popMin] at h
  | cons x rest ih =>
    rw [popMin] at h
    cases hrest : popMin rest with
    | none =>
      rw [hrest] at h
      cases h
      have hnil : rest = [] := popMin_eq_none.mp hrest
      subst hnil
      exact List.Perm.refl _
    | some p =>
      obtain ⟨m, rest'⟩ := p
      rw [hrest] at h
      have h' : (if Event.le x m = true then some (x, rest)
          else some (m, x :: rest')) = some (e, r) := h
      by_cases hle : Event.le x m = true
      · rw [if_pos hle] at h'
        cases h'
        exact List.Perm.refl _
      · rw [if_neg hle] at h'
        obtain ⟨he, hr⟩ := Prod.mk.injEq .. |>.mp (Option.some.inj h')
        subst he
        subst hr
        exact List.Perm.trans ((ih hrest).cons x) (List.Perm.swap m x rest')

theorem popMin_mem {l : List Event} {e : Event} {r : List Event}
    (h : popMin l = some (e, r)) : e ∈ l :=
  (popMin_perm h).mem_iff.mpr (List.mem_cons_self e r)

theorem popMin_lb {l : List Event} {e : Event} {r : List Event}
    (h : popMin l = some (e, r)) : ∀ x ∈ l, Event.le e x = true := by
  induction l generalizing e r with
  | nil => simp [popMin] at h
  | cons y rest ih =>
    rw [popMin] at h
    cases hrest : popMin rest with
    | none =>
      rw [hrest] at h
      cases h
      have hnil : rest = [] := popMin_eq_none.mp hrest
      subst hnil
      intro x hx
      rcases List.mem_cons.mp hx with rfl | hx
      · exact event_le_refl x
      · simp at hx
    | some p =>
      obtain ⟨m, rest'⟩ := p
      rw [hrest] at h
      have h' : (if Event.le y m = true then some (y, rest)
          else some (m, y :: rest')) = some (e, r) := h
      by_cases hle : Event.le y m = true
      · rw [if_pos hle] at h'
        cases h'
        intro x hx
        rcases List.mem_cons.mp hx with rfl | hx
        · exact event_le_refl x
        · exact event_le_trans _ _ _ hle (ih hrest x hx)
      · rw [if_neg hle] at h'
        obtain ⟨he, hr⟩ := Prod.mk.injEq .. |>.mp (Option.some.inj h')
        subst he
        subst hr
        intro x hx
        rcases List.mem_cons.mp hx with rfl | hx
        · rcases event_le_total x m with hy | hy
          · exact absurd hy hle
          · exact hy
        · exact ih hrest x hx

theorem popMin_fst_perm {l l' : List Event} (h : l.Perm l') :
    (popMin l).map Prod.fst = (popMin l').map Prod.fst := by
  cases hl : popMin l with
  | none =>
    cases hl' : popMin l' with
    | none => rfl
    | some p =>
      have hnil : l = [] := popMin_eq_none.mp hl
      subst hnil
      have : l' = [] := h.symm.eq_nil
      subst this
      simp [popMin] at hl'
  | some p =>
    obtain ⟨e, r⟩ := p
    cases hl' : popMin l' with
    | none =>
      have hnil : l' = [] := popMin_eq_none.mp hl'
      subst hnil
      have : l = [] := h.eq_nil
      subst this
      simp [popMin] at hl
    | some p' =>
      obtain ⟨e', r'⟩ := p'
      have h1 : Event.le e e' = true :=
        popMin_lb hl e' (h.mem_iff.mpr (popMin_mem hl'))
      have h2 : Event.le e' e = true :=
        popMin_lb hl' e (h.mem_iff.mp (popMin_mem hl))
      simp [event_le_antisymm _ _ h1 h2]

/-- **C10.** Same-time events are tied-broken by the Python tuple
comparison: the kind strings order as `arrival` < `failure_end` <
`failure_start` < `service_end` < `shift_change`; `popMin` (the heap
pop) always returns an element that is `Event.le`-below every pending
event; at equal times `Event.le` is exactly the kind/payload
comparison; and the popped event is independent of the insertion order
of the pending list (invariant under permutation). -/
theorem heap_tie_break :
    (EKind.str EKind.arrival < EKind.str EKind.failure_end
      ∧ EKind.str EKind.failure_end < EKind.str EKind.failure_start
      ∧ EKind.str EKind.failure_start < EKind.str (EKind.service_end 0 0)
      ∧ EKind.str (EKind.service_end 0 0) < EKind.str EKind.shift_change)
    ∧ (∀ (l : List Event) (e : Event) (r : List Event), popMin l = some (e, r) →
        e ∈ l ∧ ∀ x ∈ l, Event.le e x = true)
    ∧ (∀ a b : Event, a.time = b.time → Event.le a b = EKind.le a.kind b.kind)
    ∧ (∀ l l' : List Event, l.Perm l' →
        (popMin l).map Prod.fst = (popMin l').map Prod.fst) := by
  refine ⟨⟨by decide, by decide, by decide, by decide⟩,
    fun l e r h => ⟨popMin_mem h, popMin_lb h⟩,
    fun a b h => ?_, fun l l' h => popMin_fst_perm h⟩
  unfold Event.le
  rw [if_neg (by rw [h]; exact lt_irrefl _), if_pos h]

/-- Witness for C10: on the two-element pending list holding a
`failure_start` and a `failure_end` both at time 5, the popped minimum
is below the other event, so the `failure_end` dispatches first. -/
theorem heap_tie_break_witness :
    Event.le { time := 5, kind := EKind.failure_end }
        { time := 5, kind := EKind.failure_start } = true :=
  (heap_tie_break.2.1
    [{ time := 5, kind := EKind.failure_start },
     { time := 5, kind := EKind.failure_end }]
    { time := 5, kind := EKind.failure_end }
    [{ time := 5, kind := EKind.failure_start }]
    (by decide)).2
    { time := 5, kind := EKind.failure_start } (by simp)

/-! ### C2: when total failure duration is accumulated -/

/-- **C2 (amended).** `total_failure_duration` is accumulated inside the
`failure_start` handler itself, at the moment the episode begins: the
full sampled duration (the rescaled Beta draw taken after the
abandonment draws) is added immediately, before — and regardless of
whether — the paired `failure_end` ever dispatches. -/
theorem failure_duration_accrued_at_start (rng : ℕ → ℚ) (s : SimState) :
    (handle_event rng s EKind.failure_start).total_failure_duration =
      s.total_failure_duration +
        (s.params.failure_min_time +
          rng (s.rng_index + s.queue.length) *
            (s.params.failure_max_time - s.params.failure_min_time)) := by
  simp [handle_event, generate_failure_duration, schedule_event, abandon_idx]

set_option maxHeartbeats 2000000 in
/-- **C2 counterexample.** A run (horizon 10, default parameters) whose
single failure episode starts at time 1 but whose `failure_end` (time
13.5) lies beyond the horizon: the episode is never completed
(`in_failure` still true at the end), yet it contributed its full
sampled duration 12.5 to `total_failure_duration` — contradicting the
claim that such an episode contributes nothing. -/
theorem failure_duration_counterexample :
    (run rngC2 10 SimParams.default 10).failure_count = 1
    ∧ (run rngC2 10 SimParams.default 10).in_failure = true
    ∧ (run rngC2 10 SimParams.default 10).total_failure_duration = 25/2 := by
  norm_num [run, loop, step, popMin, handle_event, process_next_client,
    generate_arrival_time, generate_service_time, generate_failure_time,
    generate_failure_duration, schedule_event, init_sim, SimParams.default,
    SimParams.init, rngC2, Event.le, EKind.isArrival,
    pymin, pymax, abandon, SHIFT_CHANGE_TIME, List.cons_ne_nil]

/-! ### C4: absence of parameter validation -/

/-- **C4 counterexample.** `badParams` (`min_service_time = 9 >
max_service_time = 8`, an invalid clamped range) is outside the valid
domain, yet no `InvalidParameter` error exists anywhere: construction
succeeds, and a run with these parameters starts and proceeds with no
error at all — it dispatches four arrivals and even completes a service
whose duration is clamped to `max_service_time = 8`.  (On these
parameters every numpy call in the source is inside its domain, so this
run is exactly what the source program does.) -/
theorem no_validation_counterexample :
    ¬ validParams badParams
    ∧ (run rngOne 5 badParams 10).arrivals_dispatched = 4
    ∧ (run rngOne 5 badParams 10).served_customers = 1
    ∧ (run rngOne 5 badParams 10).total_service_time = 8 := by
  refine ⟨?_, ?_⟩
  · intro h
    have h1 := h.2.2.2.2.2.2.1
    norm_num [badParams, SimParams.init] at h1
  · norm_num [run, loop, step, popMin, handle_event, process_next_client,
      generate_arrival_time, generate_service_time, generate_failure_time,
      generate_failure_duration, schedule_event, init_sim, badParams,
      SimParams.init, rngOne, Event.le, EKind.isArrival,
      pymin, pymax, abandon, SHIFT_CHANGE_TIME, List.cons_ne_nil]

/-- **C4 (amended).** `SimParams` construction performs no domain
validation at all and raises nothing: `SimParams.init` stores every
argument verbatim in the corresponding field, whatever its value, and a
run with out-of-domain parameters is not prevented from starting — per
the counterexample, with an inverted clamp range
(`min_service_time > max_service_time`) the run executes with no error
whatsoever. -/
theorem no_validation_amended (a1 a2 a3 a4 a5 a6 a7 a8 a9 a10 a11 a12 a13 a14
    a15 a16 a17 a18 a19 : ℚ) :
    (SimParams.init a1 a2 a3 a4 a5 a6 a7 a8 a9 a10 a11 a12 a13 a14 a15 a16 a17
        a18 a19).mean_arrival_time = a1
    ∧ (SimParams.init a1 a2 a3 a4 a5 a6 a7 a8 a9 a10 a11 a12 a13 a14 a15 a16 a17
        a18 a19).std_arrival_time = a2
    ∧ (SimParams.init a1 a2 a3 a4 a5 a6 a7 a8 a9 a10 a11 a12 a13 a14 a15 a16 a17
        a18 a19).min_arrival_time = a3
    ∧ (SimParams.init a1 a2 a3 a4 a5 a6 a7 a8 a9 a10 a11 a12 a13 a14 a15 a16 a17
        a18 a19).mean_service_time = a4
    ∧ (SimParams.init a1 a2 a3 a4 a5 a6 a7 a8 a9 a10 a11 a12 a13 a14 a15 a16 a17
        a18 a19).slow_mean_service_time_first = a5
    ∧ (SimParams.init a1 a2 a3 a4 a5 a6 a7 a8 a9 a10 a11 a12 a13 a14 a15 a16 a17
        a18 a19).slow_mean_service_time_next = a6
    ∧ (SimParams.init a1 a2 a3 a4 a5 a6 a7 a8 a9 a10 a11 a12 a13 a14 a15 a16 a17
        a18 a19).std_service_time = a7
    ∧ (SimParams.init a1 a2 a3 a4 a5 a6 a7 a8 a9 a10 a11 a12 a13 a14 a15 a16 a17
        a18 a19).min_service_time = a8
    ∧ (SimParams.init a1 a2 a3 a4 a5 a6 a7 a8 a9 a10 a11 a12 a13 a14 a15 a16 a17
        a18 a19).max_service_time = a9
    ∧ (SimParams.init a1 a2 a3 a4 a5 a6 a7 a8 a9 a10 a11 a12 a13 a14 a15 a16 a17
        a18 a19).failure_shape = a10
    ∧ (SimParams.init a1 a2 a3 a4 a5 a6 a7 a8 a9 a10 a11 a12 a13 a14 a15 a16 a17
        a18 a19).failure_scale = a11
    ∧ (SimParams.init a1 a2 a3 a4 a5 a6 a7 a8 a9 a10 a11 a12 a13 a14 a15 a16 a17
        a18 a19).failure_alpha = a12
    ∧ (SimParams.init a1 a2 a3 a4 a5 a6 a7 a8 a9 a10 a11 a12 a13 a14 a15 a16 a17
        a18 a19).failure_beta = a13
    ∧ (SimParams.init a1 a2 a3 a4 a5 a6 a7 a8 a9 a10 a11 a12 a13 a14 a15 a16 a17
        a18 a19).failure_min_time = a14
    ∧ (SimParams.init a1 a2 a3 a4 a5 a6 a7 a8 a9 a10 a11 a12 a13 a14 a15 a16 a17
        a18 a19).failure_max_time = a15
    ∧ (SimParams.init a1 a2 a3 a4 a5 a6 a7 a8 a9 a10 a11 a12 a13 a14 a15 a16 a17
        a18 a19).expected_arrival = a16
    ∧ (SimParams.init a1 a2 a3 a4 a5 a6 a7 a8 a9 a10 a11 a12 a13 a14 a15 a16 a17
        a18 a19).expected_service = a17
    ∧ (SimParams.init a1 a2 a3 a4 a5 a6 a7 a8 a9 a10 a11 a12 a13 a14 a15 a16 a17
        a18 a19).expected_failure_time = a18
    ∧ (SimParams.init a1 a2 a3 a4 a5 a6 a7 a8 a9 a10 a11 a12 a13 a14 a15 a16 a17
        a18 a19).expected_failure_duration = a19 := by
  exact ⟨rfl, rfl, rfl, rfl, rfl, rfl, rfl, rfl, rfl, rfl, rfl, rfl, rfl, rfl,
    rfl, rfl, rfl, rfl, rfl⟩

/-! ### C8: runs with horizon 0 -/

theorem loop_succ (rng : ℕ → ℚ) (n : ℕ) (s : SimState) :
    loop rng (n + 1) s =
      match step rng s with
      | none => s
      | some s' => loop rng n s' := rfl

theorem loop_of_step_none (rng : ℕ → ℚ) (n : ℕ) (s : SimState)
    (h : step rng s = none) : loop rng n s = s := by
  cases n with
  | zero => rfl
  | succ n => rw [loop_succ, h]

theorem step_halt (rng : ℕ → ℚ) (s : SimState)
    (h : ∀ e ∈ s.event_queue, s.simulation_time < e.time) :
    step rng s = none := by
  unfold step
  by_cases h1 : s.event_queue = []
  · rw [if_pos h1]
  · rw [if_neg h1]
    by_cases h2 : s.current_time ≤ s.simulation_time
    · rw [if_pos h2]
      cases hp : popMin s.event_queue with
      | none => exact absurd (popMin_eq_none.mp hp) h1
      | some pr =>
        obtain ⟨e, r⟩ := pr
        dsimp only
        rw [if_pos (h e (popMin_mem hp))]
    · rw [if_neg h2]

set_option maxHeartbeats 2000000 in
/-- **C8 counterexample.** A horizon-0 run over the default (valid)
parameters with a positive first failure draw: as the claim states,
exactly one Arrival dispatches and `served = lost = 0`,
`unserved_at_horizon = 1` — but the arrived customer went straight into
service, so `server_busy` is `true` and the queue is empty at the end,
contradicting the claim's "counted via the queue length because
server_busy is false". -/
theorem horizon_zero_counterexample :
    (run rngOne 3 SimParams.default 0).served_customers = 0
    ∧ (run rngOne 3 SimParams.default 0).lost_customers = 0
    ∧ (run rngOne 3 SimParams.default 0).unserved_due_to_timeout = 1
    ∧ (run rngOne 3 SimParams.default 0).arrivals_dispatched = 1
    ∧ (run rngOne 3 SimParams.default 0).server_busy = true
    ∧ (run rngOne 3 SimParams.default 0).queue = [] := by
  norm_num [run, loop, step, popMin, handle_event, process_next_client,
    generate_arrival_time, generate_service_time, generate_failure_time,
    generate_failure_duration, schedule_event, init_sim, SimParams.default,
    SimParams.init, rngOne, Event.le, EKind.isArrival,
    pymin, pymax, abandon, SHIFT_CHANGE_TIME, List.cons_ne_nil]

set_option maxHeartbeats 4000000 in
/-- **C8 (amended).** For a horizon-0 run (fuel at least 2) with
`0 < min_service_time ≤ max_service_time`, `0 < min_arrival_time` and a
positive first failure-interval sample: only the time-0 Arrival
dispatches, and at run end `served = 0`, `lost = 0`,
`unserved_at_horizon = 1` — the one arrived customer having been taken
into service immediately, so it is counted via the `server_busy = true`
increment and the queue is empty. -/
theorem horizon_zero_run (rng : ℕ → ℚ) (k : ℕ) (p : SimParams)
    (hms : 0 < p.min_service_time)
    (hsm : p.min_service_time ≤ p.max_service_time)
    (hma : 0 < p.min_arrival_time)
    (hft : 0 < p.failure_scale * rng 0) :
    (run rng (k + 2) p 0).served_customers = 0
    ∧ (run rng (k + 2) p 0).lost_customers = 0
    ∧ (run rng (k + 2) p 0).unserved_due_to_timeout = 1
    ∧ (run rng (k + 2) p 0).arrivals_dispatched = 1
    ∧ (run rng (k + 2) p 0).server_busy = true
    ∧ (run rng (k + 2) p 0).queue = [] := by
  have h1 : ¬ (p.failure_scale * rng 0 < 0) := not_lt.mpr (le_of_lt hft)
  have h2 : p.failure_scale * rng 0 ≠ 0 := ne_of_gt hft
  have hf : k + 2 = (k + 1) + 1 := rfl
  rw [hf]
  unfold run
  norm_num [generate_failure_time, schedule_event, init_sim]
  rw [loop_succ]
  norm_num [step, popMin, handle_event, process_next_client,
    generate_arrival_time, generate_service_time, schedule_event, Event.le,
    EKind.isArrival, SHIFT_CHANGE_TIME, List.cons_ne_nil, h1, h2]
  rw [loop_of_step_none]
  · norm_num
  · refine step_halt rng _ (fun e he => ?_)
    simp only [List.mem_cons, List.not_mem_nil, or_false] at he
    rcases he with rfl | rfl | rfl | rfl <;> dsimp only <;>
      first
        | exact lt_of_lt_of_le hma (le_pymax_left _ _)
        | exact lt_of_lt_of_le hms
            (le_pymin _ _ _ (le_pymax_right _ _) hsm)
        | exact hft
        | norm_num

/-- Witness for the amended C8 at fuel 4, the default parameters and the
constant random source 1. -/
theorem horizon_zero_run_witness :
    (run rngOne 4 SimParams.default 0).served_customers = 0
    ∧ (run rngOne 4 SimParams.default 0).lost_customers = 0
    ∧ (run rngOne 4 SimParams.default 0).unserved_due_to_timeout = 1
    ∧ (run rngOne 4 SimParams.default 0).arrivals_dispatched = 1
    ∧ (run rngOne 4 SimParams.default 0).server_busy = true
    ∧ (run rngOne 4 SimParams.default 0).queue = [] :=
  horizon_zero_run rngOne 2 SimParams.default
    (by norm_num [SimParams.default, SimParams.init])
    (by norm_num [SimParams.default, SimParams.init])
    (by norm_num [SimParams.default, SimParams.init])
    (by norm_num [SimParams.default, SimParams.init, rngOne])

/-! ### C1: the conservation law -/

theorem abandon_count (rng : ℕ → ℚ) (q : List ℕ) : ∀ i : ℕ,
    (abandon rng i q).1.length + (abandon rng i q).2.1 = q.length := by
  induction q with
  | nil => intro i; simp [abandon]
  | cons c rest ih =>
    intro i
    by_cases h : rng i < 2/5 <;> simp [abandon, h, ih] <;>
      have := ih (i + 1) <;> omega

theorem pendingSE_cons (ev : Event) (l : List Event) :
    pendingSE (ev :: l) =
      pendingSE l + (if EKind.isServiceEnd ev.kind then 1 else 0) := by
  simp [pendingSE, List.countP_cons]

theorem pendingSE_schedule (t : ℚ) (k : EKind) (v : SimState) :
    pendingSE (schedule_event t k v).event_queue =
      pendingSE v.event_queue + (if EKind.isServiceEnd k then 1 else 0) := by
  simp [schedule_event, pendingSE_cons]

theorem Inv_schedule_nonSE (t : ℚ) (k : EKind) (v : SimState)
    (hk : EKind.isServiceEnd k = false) (h : Inv v) :
    Inv (schedule_event t k v) := by
  obtain ⟨i1, i2, i3, i4⟩ := h
  have hp : pendingSE (schedule_event t k v).event_queue
      = pendingSE v.event_queue := by
    rw [pendingSE_schedule, hk]
    simp
  refine ⟨?_, ?_, ?_, ?_⟩
  · rw [hp]; exact i1
  · exact i2
  · rw [hp]; exact i3
  · rw [hp]; exact i4

theorem Inv_gen_arrival_time (rng : ℕ → ℚ) (v : SimState) (h : Inv v) :
    Inv (generate_arrival_time rng v).2 := h

theorem Inv_gen_failure_time (rng : ℕ → ℚ) (v : SimState) (h : Inv v) :
    Inv (generate_failure_time rng v).2 := h

theorem Inv_gen_failure_duration (rng : ℕ → ℚ) (v : SimState) (h : Inv v) :
    Inv (generate_failure_duration rng v).2 := h

theorem Inv_gen_service_time (rng : ℕ → ℚ) (v : SimState) (h : Inv v) :
    Inv (generate_service_time rng v).2 := by
  rw [generate_service_time_snd]
  exact h

theorem process_next_client_facts (rng : ℕ → ℚ) (s : SimState) :
    (process_next_client rng s).served_customers = s.served_customers
    ∧ (process_next_client rng s).lost_customers = s.lost_customers
    ∧ (process_next_client rng s).arrivals_dispatched = s.arrivals_dispatched
    ∧ (process_next_client rng s).next_customer_id = s.next_customer_id
    ∧ (process_next_client rng s).queue.length
        + pendingSE (process_next_client rng s).event_queue
        = s.queue.length + pendingSE s.event_queue
    ∧ (((process_next_client rng s).server_busy = s.server_busy
          ∧ pendingSE (process_next_client rng s).event_queue
            = pendingSE s.event_queue)
        ∨ (s.server_busy = false
          ∧ (process_next_client rng s).server_busy = true
          ∧ pendingSE (process_next_client rng s).event_queue
            = pendingSE s.event_queue + 1)) := by
  unfold process_next_client
  by_cases hb : (s.server_busy || s.in_failure) = true
  · rw [if_pos hb]
    exact ⟨rfl, rfl, rfl, rfl, rfl, Or.inl ⟨rfl, rfl⟩⟩
  · rw [if_neg hb]
    simp only [Bool.or_eq_true, not_or, Bool.not_eq_true] at hb
    obtain ⟨hb1, hb2⟩ := hb
    cases hq : s.queue with
    | nil =>
      refine ⟨rfl, rfl, rfl, rfl, by rw [hq], Or.inl ⟨rfl, rfl⟩⟩
    | cons c rest =>
      simp only [generate_service_time_snd, schedule_event]
      refine ⟨trivial, trivial, trivial, trivial, ?_, Or.inr ⟨hb1, trivial, ?_⟩⟩
      · simp [pendingSE_cons, EKind.isServiceEnd]
        omega
      · simp [pendingSE_cons, EKind.isServiceEnd]

theorem process_next_client_inv (rng : ℕ → ℚ) (u : SimState) (h : Inv u) :
    Inv (process_next_client rng u) := by
  obtain ⟨h1, h2, h3, h4, h5, h6⟩ := process_next_client_facts rng u
  obtain ⟨i1, i2, i3, i4⟩ := h
  rcases h6 with ⟨hb, hp⟩ | ⟨hb0, hb1, hp⟩
  · refine ⟨by omega, by omega, ?_, by omega⟩
    rw [hb, hp]
    exact i3
  · have hp0 : pendingSE u.event_queue = 0 := by
      rcases Nat.lt_or_ge (pendingSE u.event_queue) 1 with hlt | hge
      · omega
      · exfalso
        have : pendingSE u.event_queue = 1 := by omega
        exact absurd (i3.mpr this) (by rw [hb0]; simp)
    refine ⟨by omega, by omega, ?_, by omega⟩
    rw [hb1, hp, hp0]
    simp

theorem handle_arrival_inv (rng : ℕ → ℚ) (v : SimState)
    (h1 : v.served_customers + v.lost_customers + v.queue.length
        + pendingSE v.event_queue + 1 = v.arrivals_dispatched)
    (h2 : v.next_customer_id = v.arrivals_dispatched + 1)
    (h3 : v.server_busy = true ↔ pendingSE v.event_queue = 1)
    (h4 : pendingSE v.event_queue ≤ 1) :
    Inv (handle_event rng v EKind.arrival) := by
  simp only [handle_event]
  refine Inv_schedule_nonSE _ _ _ rfl (Inv_gen_arrival_time rng _ ?_)
  by_cases hif : v.in_failure = true
  · rw [if_pos hif]
    refine ⟨?_, ?_, ?_, ?_⟩ <;> dsimp only
    · omega
    · exact h2
    · exact h3
    · exact h4
  · rw [if_neg hif]
    apply process_next_client_inv
    refine ⟨?_, ?_, ?_, ?_⟩ <;> dsimp only
    · simp only [List.length_append, List.length_cons, List.length_nil]
      omega
    · exact h2
    · exact h3
    · exact h4

theorem handle_service_end_inv (rng : ℕ → ℚ) (v : SimState) (cid : ℕ) (dur : ℚ)
    (h1 : v.served_customers + v.lost_customers + v.queue.length + 1
        = v.arrivals_dispatched)
    (h2 : v.next_customer_id = v.arrivals_dispatched + 1)
    (hp : pendingSE v.event_queue = 0) :
    Inv (handle_event rng v (EKind.service_end cid dur)) := by
  simp only [handle_event]
  apply process_next_client_inv
  by_cases hif : v.in_failure = true
  · rw [if_pos hif]
    refine ⟨?_, ?_, ?_, ?_⟩ <;> dsimp only
    · omega
    · exact h2
    · rw [hp]; simp
    · omega
  · rw [if_neg hif]
    refine ⟨?_, ?_, ?_, ?_⟩ <;> dsimp only
    · omega
    · exact h2
    · rw [hp]; simp
    · omega

theorem handle_failure_start_inv (rng : ℕ → ℚ) (v : SimState) (h : Inv v) :
    Inv (handle_event rng v EKind.failure_start) := by
  obtain ⟨i1, i2, i3, i4⟩ := h
  simp only [handle_event]
  refine Inv_schedule_nonSE _ _ _ rfl ?_
  have hab := abandon_count rng v.queue v.rng_index
  refine ⟨?_, ?_, ?_, ?_⟩ <;> dsimp only [generate_failure_duration]
  · omega
  · exact i2
  · exact i3
  · exact i4

theorem handle_failure_end_inv (rng : ℕ → ℚ) (v : SimState) (h : Inv v) :
    Inv (handle_event rng v EKind.failure_end) := by
  simp only [handle_event]
  refine Inv_schedule_nonSE _ _ _ rfl (Inv_gen_failure_time rng _ ?_)
  apply process_next_client_inv
  exact h

theorem handle_shift_change_inv (rng : ℕ → ℚ) (v : SimState) (h : Inv v) :
    Inv (handle_event rng v EKind.shift_change) := by
  simp only [handle_event]
  refine Inv_schedule_nonSE _ _ _ rfl ?_
  exact h

theorem step_inv (rng : ℕ → ℚ) (s s' : SimState) (hs : Inv s)
    (h : step rng s = some s') : Inv s' := by
  unfold step at h
  by_cases hq : s.event_queue = []
  · rw [if_pos hq] at h
    cases h
  rw [if_neg hq] at h
  by_cases hc : s.current_time ≤ s.simulation_time
  · rw [if_pos hc] at h
    cases hp : popMin s.event_queue with
    | none => rw [hp] at h; cases h
    | some pr =>
      obtain ⟨e, rest⟩ := pr
      rw [hp] at h
      have h2 : (if s.simulation_time < e.time then none
          else some (handle_event rng
            (if EKind.isArrival e.kind = true then
              { s with event_queue := rest, current_time := e.time,
                       next_customer_id := s.next_customer_id + 1,
                       arrivals_dispatched := s.arrivals_dispatched + 1 }
             else { s with event_queue := rest, current_time := e.time })
            e.kind)) = some s' := h
      by_cases ht : s.simulation_time < e.time
      · rw [if_pos ht] at h2
        cases h2
      · rw [if_neg ht] at h2
        injection h2 with h3
        subst h3
        have hcount : pendingSE s.event_queue
            = pendingSE rest + (if EKind.isServiceEnd e.kind then 1 else 0) := by
          unfold pendingSE
          rw [(popMin_perm hp).countP_eq]
          rw [List.countP_cons]
        obtain ⟨i1, i2, i3, i4⟩ := hs
        cases hek : e.kind with
        | arrival =>
          rw [hek] at hcount
          have hc0 : pendingSE s.event_queue = pendingSE rest := by
            rw [hcount]
            norm_num [EKind.isServiceEnd]
          rw [if_pos (show EKind.isArrival EKind.arrival = true from rfl)]
          apply handle_arrival_inv
          · dsimp only
            omega
          · dsimp only
            omega
          · dsimp only
            rw [← hc0]
            exact i3
          · dsimp only
            omega
        | service_end cid dur =>
          rw [hek] at hcount
          have hc1 : pendingSE s.event_queue = pendingSE rest + 1 := by
            rw [hcount]
            norm_num [EKind.isServiceEnd]
          rw [if_neg (show ¬ EKind.isArrival (EKind.service_end cid dur) = true
            from by simp [EKind.isArrival])]
          apply handle_service_end_inv
          · dsimp only
            omega
          · dsimp only
            omega
          · dsimp only
            omega
        | failure_start =>
          rw [hek] at hcount
          have hc0 : pendingSE s.event_queue = pendingSE rest := by
            rw [hcount]
            norm_num [EKind.isServiceEnd]
          rw [if_neg (show ¬ EKind.isArrival EKind.failure_start = true
            from by simp [EKind.isArrival])]
          apply handle_failure_start_inv
          refine ⟨?_, ?_, ?_, ?_⟩ <;> dsimp only
          · omega
          · omega
          · rw [← hc0]
            exact i3
          · omega
        | failure_end =>
          rw [hek] at hcount
          have hc0 : pendingSE s.event_queue = pendingSE rest := by
            rw [hcount]
            norm_num [EKind.isServiceEnd]
          rw [if_neg (show ¬ EKind.isArrival EKind.failure_end = true
            from by simp [EKind.isArrival])]
          apply handle_failure_end_inv
          refine ⟨?_, ?_, ?_, ?_⟩ <;> dsimp only
          · omega
          · omega
          · rw [← hc0]
            exact i3
          · omega
        | shift_change =>
          rw [hek] at hcount
          have hc0 : pendingSE s.event_queue = pendingSE rest := by
            rw [hcount]
            norm_num [EKind.isServiceEnd]
          rw [if_neg (show ¬ EKind.isArrival EKind.shift_change = true
            from by simp [EKind.isArrival])]
          apply handle_shift_change_inv
          refine ⟨?_, ?_, ?_, ?_⟩ <;> dsimp only
          · omega
          · omega
          · rw [← hc0]
            exact i3
          · omega
  · rw [if_neg hc] at h
    cases h

theorem loop_inv (rng : ℕ → ℚ) (n : ℕ) :
    ∀ s : SimState, Inv s → Inv (loop rng n s) := by
  induction n with
  | zero => intro s h; exact h
  | succ n ih =>
    intro s h
    rw [loop_succ]
    cases hstep : step rng s with
    | none => exact h
    | some s2 => exact ih s2 (step_inv rng s s2 h hstep)

theorem Inv_init (p : SimParams) (T : ℚ) : Inv (init_sim p T) := by
  refine ⟨?_, ?_, ?_, ?_⟩ <;> simp [init_sim, pendingSE]

theorem run_inv_parts (rng : ℕ → ℚ) (fuel : ℕ) (p : SimParams) (T : ℚ) :
    ∃ s4 : SimState,
      run rng fuel p T =
        { s4 with unserved_due_to_timeout :=
            s4.queue.length + (if s4.server_busy then 1 else 0) }
      ∧ Inv s4 := by
  refine ⟨loop rng fuel _, rfl, ?_⟩
  apply loop_inv
  refine Inv_schedule_nonSE _ _ _ rfl ?_
  refine Inv_schedule_nonSE _ _ _ rfl ?_
  refine Inv_gen_failure_time _ _ ?_
  refine Inv_schedule_nonSE _ _ _ rfl ?_
  exact Inv_init p T

/-- **C1.** Conservation law: for every run (any random source, fuel,
parameters and horizon), `served_customers + lost_customers +
unserved_due_to_timeout` equals the number of Arrival events dispatched
before the horizon (the ghost counter `arrivals_dispatched`, which also
equals `next_customer_id - 1`): every arriving customer is accounted
exactly once as served, lost, or unserved at the horizon. -/
theorem run_conservation (rng : ℕ → ℚ) (fuel : ℕ) (p : SimParams) (T : ℚ) :
    (run rng fuel p T).served_customers + (run rng fuel p T).lost_customers
        + (run rng fuel p T).unserved_due_to_timeout
      = (run rng fuel p T).arrivals_dispatched
    ∧ (run rng fuel p T).next_customer_id
      = (run rng fuel p T).arrivals_dispatched + 1 := by
  obtain ⟨s4, hrun, i1, i2, i3, i4⟩ := run_inv_parts rng fuel p T
  rw [hrun]
  dsimp only
  have hb : (if s4.server_busy = true then 1 else 0 : ℕ)
      = pendingSE s4.event_queue := by
    by_cases hbb : s4.server_busy = true
    · rw [if_pos hbb, i3.mp hbb]
    · rw [if_neg hbb]
      have hne : pendingSE s4.event_queue ≠ 1 := fun hx => hbb (i3.mpr hx)
      omega
  constructor
  · rw [hb]
    omega
  · exact i2

end QueueSim
